import Mathlib

/-!
Verification development for the ELF dependency analyzer scripts
(`src/scripts/elf_dependency_analyzer.py`,
`src/scripts/elf_rockylinux_dependency_analyzer.py`,
`src/scripts/elf_ubuntu_dependency_analyzer.py`).

The Python code is shallowly embedded: external processes (`ldd`, `rpm`,
`dpkg`, `file`, `repoquery`), the filesystem and the environment are
passed in as explicit oracle functions; `run_command` returning `None`
on `CalledProcessError` is modelled by `Option String` results; Python
exceptions that propagate are modelled with `Except`.
-/

/-! ## Python string primitives

All primitives are written over `List Char` so that they are
kernel-reducible on concrete inputs, with `String` wrappers.  They model
the exact semantics of the Python operations used by the scripts. -/

/-- Python `str.isspace` class used by `strip()`/`split()`: space, tab,
newline, carriage return, vertical tab, form feed (ASCII fragment). -/
def pyIsSpace (c : Char) : Bool :=
  c == ' ' || c == '\t' || c == '\n' || c == '\r' || c == '\x0b' || c == '\x0c'

/-- Core of Python `str.strip()`: drop leading and trailing whitespace. -/
def stripL (l : List Char) : List Char :=
  ((l.dropWhile pyIsSpace).reverse.dropWhile pyIsSpace).reverse

/-- Python `s.strip()`. -/
def pyStrip (s : String) : String := String.mk (stripL s.data)

/-- Substring test: core of Python `sub in s`. -/
def isInfixL (sub : List Char) : List Char → Bool
  | [] => sub.isPrefixOf []
  | c :: t => sub.isPrefixOf (c :: t) || isInfixL sub t

/-- Python `sub in s` on strings. -/
def pyIn (sub s : String) : Bool := isInfixL sub.data s.data

/-- Fuel-driven core of Python `s.split(sep)` for a non-empty separator
`sep`: occurrences of `sep` are cut out, empty fields are kept (so the
result for an empty input is `[[]]`, one empty field).  The fuel is
always instantiated with more than the input length, so the fuel-out
branch is never reached. -/
def splitOnFuel (sep : List Char) : Nat → List Char → List Char → List (List Char)
  | 0, s, cur => [cur.reverse ++ s]
  | _ + 1, [], cur => [cur.reverse]
  | f + 1, c :: t, cur =>
    if sep.isPrefixOf (c :: t) then
      cur.reverse :: splitOnFuel sep f (t.drop (sep.length - 1)) []
    else
      splitOnFuel sep f t (c :: cur)

/-- Python `s.split(sep)` with an explicit (non-empty) separator. -/
def pySplit (s sep : String) : List String :=
  (splitOnFuel sep.data (s.data.length + 1) s.data []).map String.mk

/-- Core of Python no-argument `s.split()`: split on whitespace runs,
dropping empty fields. -/
def splitWsL : List Char → List Char → List (List Char)
  | cur, [] => if cur.isEmpty then [] else [cur.reverse]
  | cur, c :: t =>
    if pyIsSpace c then
      if cur.isEmpty then splitWsL [] t else cur.reverse :: splitWsL [] t
    else
      splitWsL (c :: cur) t

/-- Python no-argument `s.split()`. -/
def pySplitWs (s : String) : List String := (splitWsL [] s.data).map String.mk

/-- Python `s.startswith(p)`. -/
def pyStartsWith (s p : String) : Bool := p.data.isPrefixOf s.data

/-- Python `package.split('-')[0]`: the text before the first dash
(the whole string when there is no dash). -/
def splitDashHead (s : String) : String := (pySplit s "-").headD s

/-- Python `s.split(':')[0]`: the text before the first colon. -/
def splitColonHead (s : String) : String := (pySplit s ":").headD s

/-- Python `os.path.basename`: the text after the last `/`. -/
def pyBasename (p : String) : String := (pySplit p "/").getLastD p

/-- Python `os.path.join(dir, name)` for two components: an absolute
`name` discards `dir`; an empty `dir` yields `name`; otherwise a single
`/` separates (none added when `dir` already ends in `/`). -/
def pyJoin (dir name : String) : String :=
  if pyStartsWith name "/" then name
  else if dir = "" then name
  else if (dir.data.reverse.headD ' ') = '/' then dir ++ name
  else dir ++ "/" ++ name

/-! ## Library Path Resolver

`find_library_in_ld_library_path` is textually identical in
`elf_dependency_analyzer.py` (lines 41-56) and
`elf_rockylinux_dependency_analyzer.py` (lines 86-92).  The filesystem
probe `os.path.isfile` is the oracle `isfile`; the environment variable
`LD_LIBRARY_PATH` (defaulted to `''` by `os.environ.get`) is the
argument `ld_library_path`. -/

/-- Loop body of `find_library_in_ld_library_path`: probe each
directory in order, returning the first joined path that is a file. -/
def searchDirs (isfile : String → Bool) (lib_name : String) :
    List String → Option String
  | [] => none
  | directory :: rest =>
    let potential_path := pyJoin directory lib_name
    if isfile potential_path then some potential_path
    else searchDirs isfile lib_name rest

/-- Embedding of `find_library_in_ld_library_path(lib_name)`: walk the
colon-separated directories, return the first joined path that is a
file. -/
def find_library_in_ld_library_path (isfile : String → Bool)
    (ld_library_path lib_name : String) : Option String :=
  searchDirs isfile lib_name (pySplit ld_library_path ":")

/-- Embedding of the resolution stage of the Rocky Linux
`get_package_info` (elf_rockylinux_dependency_analyzer.py lines 95-99):
an existing path is kept; otherwise the base name is searched in
`LD_LIBRARY_PATH`. -/
def resolve_lib_path (isfile : String → Bool) (ld_library_path lib_path : String) :
    Option String :=
  if isfile lib_path then some lib_path
  else find_library_in_ld_library_path isfile ld_library_path (pyBasename lib_path)

/-- C9: the Library Path Resolver is idempotent on existing paths: for
every filesystem oracle and every search-path value, a path reported as
an existing file is returned unchanged, and the result does not depend
on the search-path directory list. -/
theorem C9_resolver_idempotent (isfile : String → Bool)
    (ld_library_path lib_path : String) (h : isfile lib_path = true) :
    resolve_lib_path isfile ld_library_path lib_path = some lib_path := by
  simp [resolve_lib_path, h]

/-- Witness for C9 at a concrete existing path and a non-trivial search
path. -/
theorem C9_witness :
    (fun q => q == "/lib64/libz.so.1") "/lib64/libz.so.1" = true ∧
    resolve_lib_path (fun q => q == "/lib64/libz.so.1") "/opt/other/lib"
      "/lib64/libz.so.1" = some "/lib64/libz.so.1" :=
  ⟨by decide,
   C9_resolver_idempotent (fun q => q == "/lib64/libz.so.1") "/opt/other/lib"
     "/lib64/libz.so.1" (by decide)⟩

/-- C10: with an unset or empty `LD_LIBRARY_PATH`, `''.split(':')`
yields the single empty directory `''`, and `os.path.join('', name)`
is the bare name, so the search probes exactly the current working
directory: it returns the bare base filename when a same-named file
exists there and nothing otherwise. -/
theorem C10_empty_search_path (isfile : String → Bool) (lib_name : String) :
    find_library_in_ld_library_path isfile "" lib_name =
      if isfile lib_name then some lib_name else none := by
  have hjoin : pyJoin "" lib_name = lib_name := by
    unfold pyJoin
    by_cases h : pyStartsWith lib_name "/" = true <;> simp [h]
  unfold find_library_in_ld_library_path
  rw [show pySplit "" ":" = [""] from rfl]
  unfold searchDirs
  simp only [hjoin]
  by_cases h : isfile lib_name = true <;> simp [h, searchDirs]

/-! ## Package Ownership Lookup

Rocky Linux variant (`elf_rockylinux_dependency_analyzer.py` lines
94-107, identical to `elf_dependency_analyzer.py` lines 58-83): resolve
the path, then ask `rpm -qf`.  The `rpm` invocation through
`run_command` is the oracle `rpmQ` (`none` models a failed command). -/

/-- Embedding of the Rocky Linux `get_package_info(lib_path)`.  A
truthy (non-empty) `rpm -qf` output yields the pair
`(output.split('-')[0], output.strip())`. -/
def Rocky.get_package_info (isfile : String → Bool) (ld_library_path : String)
    (rpmQ : String → Option String) (lib_path : String) :
    Option (String × String) :=
  match resolve_lib_path isfile ld_library_path lib_path with
  | none => none
  | some p =>
    match rpmQ p with
    | none => none
    | some full_package_name =>
      if full_package_name = "" then none
      else some (splitDashHead full_package_name, pyStrip full_package_name)

/-! Ubuntu variant (`elf_ubuntu_dependency_analyzer.py` lines 51-99).
The `dpkg -S` and `file` invocations through `run_command` are the
oracles `dpkgQ` and `fileQ`. -/

/-- The static `core_libs` table of `elf_ubuntu_dependency_analyzer.py`
(lines 70-87), in source order (Python dicts iterate in insertion
order). -/
def core_libs : List (String × String) :=
  [("libc.so", "libc6"), ("libm.so", "libc6"), ("libdl.so", "libc6"),
   ("libpthread.so", "libc6"), ("libresolv.so", "libc6"),
   ("librt.so", "libc6"), ("libgcc_s.so", "libgcc-s1"),
   ("libstdc++.so", "libstdc++6"), ("libz.so", "zlib1g"),
   ("libbz2.so", "libbz2-1.0"), ("libpam.so", "libpam0g"),
   ("libaudit.so", "libaudit1"), ("libcap-ng.so", "libcap-ng0"),
   ("libkeyutils.so", "libkeyutils1"), ("liblzma.so", "liblzma5"),
   ("libcom_err.so", "libcomerr2")]

/-- Embedding of the Ubuntu `get_package_info(lib_path)`: the
custom-prefix override first, then `dpkg -S`, then the `core_libs`
table on the base filename, then the `file`-output fallback. -/
def Ubuntu.get_package_info (dpkgQ fileQ : String → Option String)
    (lib_path : String) : Option (String × String) :=
  if pyStartsWith lib_path "/usr/local/cloudberry-db" then
    some ("cloudberry-custom", "Cloudberry custom library: " ++ lib_path)
  else
    let viaDpkg : Option (String × String) :=
      match dpkgQ lib_path with
      | none => none
      | some dpkg_output =>
        if dpkg_output = "" then none
        else some (splitColonHead dpkg_output, pyStrip dpkg_output)
    match viaDpkg with
    | some r => some r
    | none =>
      let lib_name := pyBasename lib_path
      match core_libs.find? (fun cp => pyStartsWith lib_name cp.1) with
      | some cp => some (cp.2, "Core system library: " ++ lib_path)
      | none =>
        match fileQ lib_path with
        | none => none
        | some file_output =>
          if file_output = "" then none
          else some ("system-library",
            "System library: " ++ lib_path ++ " - " ++ pyStrip file_output)

/-- C6: any path beneath the custom install prefix
`/usr/local/cloudberry-db` yields the synthetic custom package record,
for every behaviour of the `dpkg` and `file` oracles — so neither the
package-manager query, the core-library table, nor the file-type
fallback is consulted, even when a `dpkg` query on the path would
succeed. -/
theorem C6_custom_prefix_precedence (dpkgQ fileQ : String → Option String)
    (lib_path : String)
    (h : pyStartsWith lib_path "/usr/local/cloudberry-db" = true) :
    Ubuntu.get_package_info dpkgQ fileQ lib_path =
      some ("cloudberry-custom", "Cloudberry custom library: " ++ lib_path) := by
  simp [Ubuntu.get_package_info, h]

/-- Witness for C6 at a concrete custom-prefix path, with a `dpkg`
oracle that would also succeed on it. -/
theorem C6_witness :
    pyStartsWith "/usr/local/cloudberry-db/lib/libpostgres.so"
      "/usr/local/cloudberry-db" = true ∧
    Ubuntu.get_package_info
      (fun _ => some "somepkg: /usr/local/cloudberry-db/lib/libpostgres.so")
      (fun _ => some "ELF 64-bit LSB shared object")
      "/usr/local/cloudberry-db/lib/libpostgres.so" =
      some ("cloudberry-custom",
        "Cloudberry custom library: /usr/local/cloudberry-db/lib/libpostgres.so") :=
  ⟨by decide,
   C6_custom_prefix_precedence
     (fun _ => some "somepkg: /usr/local/cloudberry-db/lib/libpostgres.so")
     (fun _ => some "ELF 64-bit LSB shared object")
     "/usr/local/cloudberry-db/lib/libpostgres.so" (by decide)⟩

/-! ## Binary Classifier

`is_elf_binary` is textually identical in all three scripts
(e.g. `elf_rockylinux_dependency_analyzer.py` lines 221-223).  It runs
`file` through `run_command` and evaluates
`'ELF' in file_output and ('executable' in file_output or 'shared object' in file_output)`.
When `run_command` fails it returns `None`, and `'ELF' in None` raises
`TypeError` — modelled by `Except.error ()`. -/

/-- Embedding of `is_elf_binary(file_path)` over the `file`-command
oracle `fileCmd`. -/
def is_elf_binary (fileCmd : String → Option String) (file_path : String) :
    Except Unit Bool :=
  match fileCmd file_path with
  | none => .error ()
  | some file_output =>
    .ok (pyIn "ELF" file_output &&
      (pyIn "executable" file_output || pyIn "shared object" file_output))

/-- C5 (code bug): whenever the `file` inspection command fails and
`run_command` yields no output, `is_elf_binary` does not return
`false` — evaluating `'ELF' in None` raises a `TypeError`, which both
scripts' own docstrings ("Returns bool ... False otherwise") and the
spec contradict. -/
theorem C5_code_bug (fileCmd : String → Option String) (file_path : String)
    (h : fileCmd file_path = none) :
    is_elf_binary fileCmd file_path = .error () := by
  simp [is_elf_binary, h]

/-- Witness for C5: a concrete path on which the `file` command fails. -/
theorem C5_witness :
    (fun _ : String => (none : Option String)) "/root/unreadable" = none ∧
    is_elf_binary (fun _ => none) "/root/unreadable" = .error () :=
  ⟨rfl, C5_code_bug (fun _ => none) "/root/unreadable" rfl⟩

/-! ## Linker-output line classification

Each `process_binary` walks the `ldd` output line by line and routes
every line into exactly one of: skipped, `missing_libraries`,
`packages`, or `special_cases`.  `LineAction` records that routing for
one line. -/

/-- Outcome of processing one `ldd` output line. -/
inductive LineAction where
  | skip
  | missing (name : String)
  | package (info : String × String)
  | special (s : String)
  /-- Python `parts[1].split()[0]` on an all-whitespace `parts[1]`
  raises `IndexError`. -/
  | indexError
deriving DecidableEq, Repr

/-- The `known_special_cases` list of both fuller analyzers. -/
def known_special_cases : List String :=
  ["linux-vdso.so.1", "ld-linux-x86-64.so.2"]

/-- Embedding of the loop body of the Rocky Linux `process_binary`
(elf_rockylinux_dependency_analyzer.py lines 178-210) on one line. -/
def Rocky.classify_line (isfile exists_ : String → Bool)
    (ld_library_path : String) (rpmQ : String → Option String)
    (line : String) : LineAction :=
  if known_special_cases.any (fun special => pyIn special line) then .skip
  else
    let parts := pySplit line "=>"
    let lib_name := pyStrip (parts.headD "")
    if pyIn "not found" line then .missing lib_name
    else if h : 1 < parts.length then
      match pySplitWs (parts.get ⟨1, h⟩) with
      | [] => .indexError
      | tok :: _ =>
        let lib_path := tok
        if lib_path ≠ "not" then
          match Rocky.get_package_info isfile ld_library_path rpmQ lib_path with
          | some info => .package info
          | none =>
            if exists_ lib_path then
              .special (lib_path ++ " is a custom or non-RPM library")
            else
              .special (lib_path ++ " is not found and might be a special case")
        else .special (pyStrip line ++ " is a special case or built-in library")
    else .special (pyStrip line ++ " is a special case or built-in library")

/-- Embedding of the loop body of the Ubuntu `process_binary`
(elf_ubuntu_dependency_analyzer.py lines 156-176) on one line.  The
oracle `rp` models `os.path.realpath`; note that the source applies it
to `parts[1].split()[0].strip()` before comparing against the bare
token `"not"`. -/
def Ubuntu.classify_line (rp : String → String)
    (dpkgQ fileQ : String → Option String) (line : String) : LineAction :=
  if pyIn "=>" line = false then .skip
  else
    let parts := pySplit line "=>"
    let lib_name := pyStrip (parts.headD "")
    match pySplitWs ((parts.drop 1).headD "") with
    | [] => .indexError
    | tok :: _ =>
      let lib_path := rp (pyStrip tok)
      if lib_path = "not" then .missing lib_name
      else
        match Ubuntu.get_package_info dpkgQ fileQ lib_path with
        | some info => .package info
        | none => .special (lib_path ++ " is not found and might be a special case")

/-- C4 (code bug): on the linker line `libfoo.so.1 => not found`, the
Rocky Linux analyzer records `libfoo.so.1` as a MissingLibrary, but the
Ubuntu analyzer cannot: it applies `os.path.realpath` to the token
`not` before the `== "not"` comparison, and since `realpath` of the
relative name `not` is an absolute path (hypothesis `hrp`), the
missing branch is unreachable and the line is routed through
`get_package_info` instead — contradicting the analyzer's own
`MISSING` branch and the spec. -/
theorem C4_code_bug (isfile exists_ : String → Bool) (ld_library_path : String)
    (rpmQ : String → Option String) (rp : String → String)
    (dpkgQ fileQ : String → Option String)
    (hrp : rp "not" ≠ "not") :
    Rocky.classify_line isfile exists_ ld_library_path rpmQ
      "libfoo.so.1 => not found" = .missing "libfoo.so.1" ∧
    ∀ name, Ubuntu.classify_line rp dpkgQ fileQ
      "libfoo.so.1 => not found" ≠ .missing name := by
  constructor
  · rfl
  · intro name
    have key : Ubuntu.classify_line rp dpkgQ fileQ "libfoo.so.1 => not found" =
        (if rp "not" = "not" then .missing "libfoo.so.1"
         else
           match Ubuntu.get_package_info dpkgQ fileQ (rp "not") with
           | some info => .package info
           | none =>
             .special (rp "not" ++ " is not found and might be a special case")) :=
      rfl
    rw [key, if_neg hrp]
    cases Ubuntu.get_package_info dpkgQ fileQ (rp "not") <;> simp

/-- Witness for C4: concrete oracles, with `realpath` resolving
relative names against the working directory `/tmp`. -/
theorem C4_witness :
    (fun s => "/tmp/" ++ s) "not" ≠ "not" ∧
    Rocky.classify_line (fun _ => false) (fun _ => false) ""
      (fun _ => none) "libfoo.so.1 => not found" = .missing "libfoo.so.1" ∧
    Ubuntu.classify_line (fun s => "/tmp/" ++ s) (fun _ => none)
      (fun _ => none) "libfoo.so.1 => not found" ≠ .missing "libfoo.so.1" :=
  ⟨by decide,
   (C4_code_bug (fun _ => false) (fun _ => false) "" (fun _ => none)
     (fun s => "/tmp/" ++ s) (fun _ => none) (fun _ => none) (by decide)).1,
   (C4_code_bug (fun _ => false) (fun _ => false) "" (fun _ => none)
     (fun s => "/tmp/" ++ s) (fun _ => none) (fun _ => none)
     (by decide)).2 "libfoo.so.1"⟩

/-! ## Linker-Output Parser

Both `parse_ldd_line` functions run
`re.search(r'\s*(\S+) => (\S+) \((0x[0-9a-f]+)\)', line)`;
`elf_dependency_analyzer.py` (line 39) returns `match.group(2)` (the
resolved path) while `elf_rockylinux_dependency_analyzer.py` (line 84)
returns `match.group(1)` (the library name).  The pattern is embedded
as a backtracking matcher with Python's greedy quantifier semantics
(longest first, backtracking on continuation failure), tried at each
successive start position as `re.search` does.  The third group
`(0x[0-9a-f]+)` is matched (the literal `0x` then one or more lowercase
hex digits) but its capture is unused by both sources. -/

/-- Greedy `cls*`: consume as many `cls`-characters as possible, then
run the continuation `k` on the rest, backtracking one character at a
time on failure. -/
def starGreedy {α : Type} (cls : Char → Bool) (k : List Char → Option α) :
    List Char → Option α
  | [] => k []
  | c :: t =>
    if cls c then
      match starGreedy cls k t with
      | some r => some r
      | none => k (c :: t)
    else k (c :: t)

/-- Tail of greedy `cls+` with the consumed characters accumulated in
reverse in `acc`; the continuation receives the captured run and the
rest. -/
def plusAux {α : Type} (cls : Char → Bool)
    (k : List Char → List Char → Option α) (acc : List Char) :
    List Char → Option α
  | [] => k acc.reverse []
  | c :: t =>
    if cls c then
      match plusAux cls k (c :: acc) t with
      | some r => some r
      | none => k acc.reverse (c :: t)
    else k acc.reverse (c :: t)

/-- Greedy capturing `cls+`: at least one `cls`-character, longest
first. -/
def plusGreedy {α : Type} (cls : Char → Bool)
    (k : List Char → List Char → Option α) : List Char → Option α
  | [] => none
  | c :: t => if cls c then plusAux cls k [c] t else none

/-- Literal matcher: strip the expected literal off the front. -/
def litMatch : List Char → List Char → Option (List Char)
  | [], s => some s
  | _ :: _, [] => none
  | l :: ls, c :: t => if c = l then litMatch ls t else none

/-- Lowercase-hex character class `[0-9a-f]` of the pattern. -/
def isHexLower (c : Char) : Bool := c.isDigit || ('a' ≤ c && c ≤ 'f')

/-- One match attempt of the `ldd` pattern at the current position,
returning the captures of groups 1 and 2. -/
def matchLddAt (s : List Char) : Option (List Char × List Char) :=
  starGreedy pyIsSpace (fun s1 =>
    plusGreedy (fun c => !pyIsSpace c) (fun g1 s2 =>
      (litMatch " => ".data s2).bind (fun s3 =>
        plusGreedy (fun c => !pyIsSpace c) (fun g2 s4 =>
          (litMatch " (0x".data s4).bind (fun s5 =>
            plusGreedy isHexLower (fun _ s6 =>
              (litMatch ")".data s6).map (fun _ => (g1, g2))) s5)) s3)) s1) s

/-- Embedding of `re.search` for the `ldd` pattern: try a match at each
successive start position. -/
def reSearchLdd : List Char → Option (List Char × List Char)
  | [] => matchLddAt []
  | c :: t =>
    match matchLddAt (c :: t) with
    | some g => some g
    | none => reSearchLdd t

/-- Embedding of `parse_ldd_line(line)` from
`elf_dependency_analyzer.py`: `match.group(2)`, the resolved path. -/
def parse_ldd_line (line : String) : Option String :=
  (reSearchLdd line.data).map (fun g => String.mk g.2)

/-- Embedding of `parse_ldd_line(line)` from
`elf_rockylinux_dependency_analyzer.py`: `match.group(1)`, the library
name. -/
def Rocky.parse_ldd_line (line : String) : Option String :=
  (reSearchLdd line.data).map (fun g => String.mk g.1)

/-- C7 counterexample: on the spec's own example line, the Rocky Linux
`parse_ldd_line` returns the library name `libz.so.1` — group 1, as its
docstring says — and not the resolved path `/lib64/libz.so.1` that the
claim requires of every Linker-Output Parser. -/
theorem C7_counterexample :
    Rocky.parse_ldd_line "libz.so.1 => /lib64/libz.so.1 (0x00007f0a2b0c5000)" =
      some "libz.so.1" ∧
    Rocky.parse_ldd_line "libz.so.1 => /lib64/libz.so.1 (0x00007f0a2b0c5000)" ≠
      some "/lib64/libz.so.1" := by
  constructor
  · rfl
  · intro h
    rw [show Rocky.parse_ldd_line
        "libz.so.1 => /lib64/libz.so.1 (0x00007f0a2b0c5000)" =
        some "libz.so.1" from rfl] at h
    simp at h

/-- Stripping a literal off a string that starts with it. -/
theorem litMatch_append (l s : List Char) : litMatch l (l ++ s) = some s := by
  induction l with
  | nil => rfl
  | cons c ls ih => simp [litMatch, ih]

/-- A greedy star over a maximal run succeeds when its continuation
succeeds right after the run: the longest-first attempt is the first
one tried and it goes through, so no backtracking occurs. -/
theorem starGreedy_run {α : Type} (cls : Char → Bool)
    (k : List Char → Option α) (pre rest : List Char) (r : α)
    (hpre : ∀ c ∈ pre, cls c = true)
    (hrest : ∀ d, rest.head? = some d → cls d = false)
    (hk : k rest = some r) :
    starGreedy cls k (pre ++ rest) = some r := by
  induction pre with
  | nil =>
    cases rest with
    | nil => simpa [starGreedy] using hk
    | cons d t => simpa [starGreedy, hrest d rfl] using hk
  | cons c pre' ih =>
    have hc : cls c = true := hpre c (List.mem_cons_self c pre')
    have ih' := ih (fun x hx => hpre x (List.mem_cons_of_mem c hx))
    rw [List.cons_append]
    unfold starGreedy
    rw [hc]
    simp only [if_true]
    rw [ih']

/-- Greedy-plus tail over a maximal run: as for `starGreedy_run`, the
longest-first attempt succeeds directly. -/
theorem plusAux_run {α : Type} (cls : Char → Bool)
    (k : List Char → List Char → Option α) (cs : List Char) :
    ∀ (acc rest : List Char) (r : α),
    (∀ c ∈ cs, cls c = true) →
    (∀ d, rest.head? = some d → cls d = false) →
    k (acc.reverse ++ cs) rest = some r →
    plusAux cls k acc (cs ++ rest) = some r := by
  induction cs with
  | nil =>
    intro acc rest r _ hrest hk
    cases rest with
    | nil => simpa [plusAux] using hk
    | cons d t => simpa [plusAux, hrest d rfl] using hk
  | cons c cs' ih =>
    intro acc rest r hcs hrest hk
    have hc : cls c = true := hcs c (List.mem_cons_self c cs')
    have hk' : k ((c :: acc).reverse ++ cs') rest = some r := by
      simpa [List.append_assoc] using hk
    have ih' := ih (c :: acc) rest r
      (fun x hx => hcs x (List.mem_cons_of_mem c hx)) hrest hk'
    rw [List.cons_append]
    unfold plusAux
    rw [hc]
    simp only [if_true]
    rw [ih']

/-- Greedy capturing plus over a maximal non-empty run. -/
theorem plusGreedy_run {α : Type} (cls : Char → Bool)
    (k : List Char → List Char → Option α) (cs rest : List Char) (r : α)
    (hne : cs ≠ [])
    (hcs : ∀ c ∈ cs, cls c = true)
    (hrest : ∀ d, rest.head? = some d → cls d = false)
    (hk : k cs rest = some r) :
    plusGreedy cls k (cs ++ rest) = some r := by
  obtain ⟨c, cs', rfl⟩ := List.exists_cons_of_ne_nil hne
  have hc : cls c = true := hcs c (List.mem_cons_self c cs')
  have h := plusAux_run cls k cs' [c] rest r
    (fun x hx => hcs x (List.mem_cons_of_mem c hx)) hrest (by simpa using hk)
  rw [List.cons_append]
  show (if cls c = true then plusAux cls k [c] (cs' ++ rest) else none) = some r
  rw [if_pos hc]
  exact h

/-- A successful match attempt at the start makes the search succeed
immediately. -/
theorem reSearchLdd_of_matchAt (l : List Char) (g : List Char × List Char)
    (h : matchLddAt l = some g) : reSearchLdd l = some g := by
  cases l with
  | nil => simpa [reSearchLdd] using h
  | cons c t => simp [reSearchLdd, h]

/-- First element of a non-empty run followed by anything. -/
theorem head?_append_of_ne_nil (xs ys : List Char) (h : xs ≠ []) :
    (xs ++ ys).head? = xs.head? := by
  cases xs with
  | nil => exact absurd rfl h
  | cons c t => rfl

/-- The pattern matches a well-formed resolved line at position 0,
capturing the name and the path. -/
theorem matchLddAt_wellFormed (pre name path hex post : List Char)
    (hpre : ∀ c ∈ pre, pyIsSpace c = true)
    (hname : name ≠ []) (hname' : ∀ c ∈ name, pyIsSpace c = false)
    (hpath : path ≠ []) (hpath' : ∀ c ∈ path, pyIsSpace c = false)
    (hhex : hex ≠ []) (hhex' : ∀ c ∈ hex, isHexLower c = true) :
    matchLddAt (pre ++ (name ++ (" => ".data ++ (path ++
      (" (0x".data ++ (hex ++ (')' :: post))))))) = some (name, path) := by
  unfold matchLddAt
  apply starGreedy_run _ _ pre _ _ hpre
  · intro d hd
    rw [head?_append_of_ne_nil _ _ hname] at hd
    exact hname' d (List.mem_of_mem_head? hd)
  · apply plusGreedy_run _ _ name _ _ hname
      (fun x hx => by simp [hname' x hx])
      (fun d hd => by
        rw [show (" => ".data ++ (path ++ (" (0x".data ++ (hex ++
          (')' :: post))))).head? = some ' ' from rfl] at hd
        cases hd
        decide)
    rw [litMatch_append, Option.some_bind]
    apply plusGreedy_run _ _ path _ _ hpath
      (fun x hx => by simp [hpath' x hx])
      (fun d hd => by
        rw [show (" (0x".data ++ (hex ++ (')' :: post))).head? = some ' '
          from rfl] at hd
        cases hd
        decide)
    rw [litMatch_append, Option.some_bind]
    apply plusGreedy_run _ _ hex _ _ hhex hhex'
      (fun d hd => by
        rw [show ((')' :: post : List Char)).head? = some ')' from rfl] at hd
        cases hd
        decide)
    rw [show (")".data = [')']) from rfl]
    rw [show litMatch [')'] (')' :: post) = some post from by simp [litMatch]]
    rfl

/-- C7 (amended): for every well-formed resolved line
`⟨whitespace⟩name => path (0xhex)⟨rest⟩` — name and path non-empty and
whitespace-free, hex a non-empty run of lowercase hex digits — the
parser of `elf_dependency_analyzer.py` returns exactly the resolved
path between `=>` and the trailing parenthetical, while the
`parse_ldd_line` of `elf_rockylinux_dependency_analyzer.py` instead
returns the library name before the `=>` separator. -/
theorem C7_amended (pre name path hex post : List Char)
    (hpre : ∀ c ∈ pre, pyIsSpace c = true)
    (hname : name ≠ []) (hname' : ∀ c ∈ name, pyIsSpace c = false)
    (hpath : path ≠ []) (hpath' : ∀ c ∈ path, pyIsSpace c = false)
    (hhex : hex ≠ []) (hhex' : ∀ c ∈ hex, isHexLower c = true) :
    parse_ldd_line (String.mk (pre ++ (name ++ (" => ".data ++ (path ++
        (" (0x".data ++ (hex ++ (')' :: post)))))))) =
      some (String.mk path) ∧
    Rocky.parse_ldd_line (String.mk (pre ++ (name ++ (" => ".data ++ (path ++
        (" (0x".data ++ (hex ++ (')' :: post)))))))) =
      some (String.mk name) := by
  have hm := matchLddAt_wellFormed pre name path hex post hpre hname hname'
    hpath hpath' hhex hhex'
  have hs := reSearchLdd_of_matchAt _ _ hm
  constructor
  · unfold parse_ldd_line
    rw [show (String.mk (pre ++ (name ++ (" => ".data ++ (path ++
        (" (0x".data ++ (hex ++ (')' :: post)))))))).data =
      pre ++ (name ++ (" => ".data ++ (path ++
        (" (0x".data ++ (hex ++ (')' :: post)))))) from rfl]
    rw [hs]
    rfl
  · unfold Rocky.parse_ldd_line
    rw [show (String.mk (pre ++ (name ++ (" => ".data ++ (path ++
        (" (0x".data ++ (hex ++ (')' :: post)))))))).data =
      pre ++ (name ++ (" => ".data ++ (path ++
        (" (0x".data ++ (hex ++ (')' :: post)))))) from rfl]
    rw [hs]
    rfl

/-- Witness for C7 (amended) at the spec's example line, with a leading
tab as `ldd` prints. -/
theorem C7_witness :
    parse_ldd_line
        (String.mk (['\t'] ++ ("libz.so.1".data ++ (" => ".data ++
          ("/lib64/libz.so.1".data ++ (" (0x".data ++
            ("00007f0a2b0c5000".data ++ (')' :: ([] : List Char))))))))) =
      some "/lib64/libz.so.1" ∧
    Rocky.parse_ldd_line
        (String.mk (['\t'] ++ ("libz.so.1".data ++ (" => ".data ++
          ("/lib64/libz.so.1".data ++ (" (0x".data ++
            ("00007f0a2b0c5000".data ++ (')' :: ([] : List Char))))))))) =
      some "libz.so.1" :=
  C7_amended ['\t'] "libz.so.1".data "/lib64/libz.so.1".data
    "00007f0a2b0c5000".data []
    (by decide) (by decide) (by decide) (by decide) (by decide) (by decide)
    (by decide)

/-! ## Dependency Graph Builder

`elf_rockylinux_dependency_analyzer.py` lines 109-126.  The `repoquery`
invocation is the oracle `repoQ` (`none` models a `CalledProcessError`,
`some out` a successful run with stdout `out`).  Python sets are
modelled as deduplicated lists (Python set iteration order does not
affect any property below). -/

/-- Embedding of `get_package_dependencies(package)`: on failure the
`except` branch returns the empty set; on success the result is
`set(output.strip().split('\n'))` — note that a successful empty output
yields the singleton set containing the empty string, never the empty
set. -/
def get_package_dependencies (repoQ : String → Option String)
    (package : String) : List String :=
  match repoQ package with
  | none => []
  | some output => (pySplit (pyStrip output) "\n").dedup

/-- The `all_packages` set of `build_high_level_packages` (lines
118-120): the dash-prefix of every full package name in the grand
summary's value sets. -/
def all_packages (grand_summary : List (String × List String)) : List String :=
  ((grand_summary.map (fun kv => kv.2.map splitDashHead)).flatten).dedup

/-- Embedding of `build_high_level_packages(grand_summary)` (lines
117-126): for each discovered package, query its dependencies and —
only when the resulting set is truthy (non-empty) — record the
dash-prefixes of the dependencies under the package's key. -/
def build_high_level_packages (repoQ : String → Option String)
    (grand_summary : List (String × List String)) :
    List (String × List String) :=
  (all_packages grand_summary).filterMap (fun package =>
    let deps := get_package_dependencies repoQ package
    if deps.isEmpty then none
    else some (package, deps.map splitDashHead))

/-- C1 counterexample: with a grand summary that discovered the package
`glibc` and a `repoquery` that fails (exits non-zero) on it, the
builder omits the key `glibc` entirely — the claim requires the key to
be present with an empty edge set. -/
theorem C1_counterexample :
    all_packages [("glibc", ["glibc-2.34-40.el9.x86_64"])] = ["glibc"] ∧
    (build_high_level_packages (fun _ => none)
        [("glibc", ["glibc-2.34-40.el9.x86_64"])]).lookup "glibc" = none ∧
    build_high_level_packages (fun _ => none)
        [("glibc", ["glibc-2.34-40.el9.x86_64"])] = [] := by
  refine ⟨rfl, rfl, rfl⟩

/-- Lookup in a list built by a guarded, key-preserving `filterMap`
over distinct keys. -/
theorem lookup_filterMap_guard (c : String → Bool) (g : String → List String)
    (l : List String) (hnd : l.Nodup) (p : String) :
    (l.filterMap (fun x => if c x then some (x, g x) else none)).lookup p =
      if p ∈ l ∧ c p then some (g p) else none := by
  induction l with
  | nil => simp
  | cons a t ih =>
    have ha : a ∉ t := (List.nodup_cons.mp hnd).1
    have iht := ih (List.nodup_cons.mp hnd).2
    by_cases hca : c a = true
    · by_cases hpa : p = a
      · subst hpa
        simp [List.filterMap_cons, hca, List.lookup]
      · have hba : (p == a) = false := beq_eq_false_iff_ne.mpr hpa
        simp only [List.filterMap_cons, hca, if_true, List.lookup, hba]
        rw [iht]
        simp [List.mem_cons, hpa]
    · have hca' : c a = false := by simpa using hca
      simp only [List.filterMap_cons, hca', Bool.false_eq_true, if_false]
      rw [iht]
      by_cases hpa : p = a
      · subst hpa
        simp [ha, hca']
      · simp [List.mem_cons, hpa]

/-- C1 (amended): the builder records a package under its key exactly
when it is among the run's discovered packages and its requirements
query yields a truthy (non-empty) dependency set; in particular a
package whose query fails — the failure is modelled as the empty set —
is omitted from the graph mapping rather than recorded with an empty
edge set.  (A successful query with empty output yields the singleton
set containing the empty string, which is non-empty, so that package is
recorded.) -/
theorem C1_amended (repoQ : String → Option String)
    (grand_summary : List (String × List String)) (p : String) :
    (build_high_level_packages repoQ grand_summary).lookup p =
      if p ∈ all_packages grand_summary ∧
          (get_package_dependencies repoQ p).isEmpty = false then
        some ((get_package_dependencies repoQ p).map splitDashHead)
      else none := by
  unfold build_high_level_packages
  have hnd : (all_packages grand_summary).Nodup := by
    unfold all_packages
    exact List.nodup_dedup _
  have h := lookup_filterMap_guard
    (fun x => !(get_package_dependencies repoQ x).isEmpty)
    (fun x => (get_package_dependencies repoQ x).map splitDashHead)
    (all_packages grand_summary) hnd p
  rw [show (fun package : String =>
      let deps := get_package_dependencies repoQ package
      if deps.isEmpty then none
      else some (package, deps.map splitDashHead)) =
    (fun x => if (!(get_package_dependencies repoQ x).isEmpty) = true then
        some (x, (get_package_dependencies repoQ x).map splitDashHead)
      else none) from by
    funext x
    by_cases hx : (get_package_dependencies repoQ x).isEmpty <;> simp [hx]]
  rw [h]
  by_cases h1 : p ∈ all_packages grand_summary <;>
    by_cases h2 : (get_package_dependencies repoQ p).isEmpty <;>
      simp [h1, h2]

/-! ## Dependency Cache

`load_or_build_high_level_packages` (elf_rockylinux_dependency_analyzer.py
lines 128-137).  The cache file's state is modelled by
`Option CacheData`: `none` — no file (`os.path.exists` false);
`CacheData.malformed` — a file whose content makes `json.load`,
the `timestamp` access or `dateutil.parser.parse` raise (the source
wraps none of these in try/except, so the exception propagates —
modelled as `Except.error ()`); `CacheData.ok ts pkgs` — a well-formed
record.  Time is in seconds, so `timedelta(days=CACHE_EXPIRY_DAYS)`
is `CACHE_EXPIRY_DAYS * secondsPerDay`; the two `datetime.now()` calls
of the source are modelled by the single instant `now`. -/

/-- Parsed state of the cache file's content. -/
inductive CacheData where
  | malformed
  | ok (timestamp : Int) (packages : List (String × List String))
deriving DecidableEq, Repr

/-- The `CACHE_EXPIRY_DAYS = 7` constant (line 61). -/
def CACHE_EXPIRY_DAYS : Int := 7

/-- Seconds per day, for `timedelta(days=...)`. -/
def secondsPerDay : Int := 86400

/-- Result of a completed `load_or_build_high_level_packages` call: the
returned graph, the cache file's state afterwards, and whether the
Graph Builder (and hence the requirements query) ran. -/
structure LoadResult where
  result : List (String × List String)
  cacheAfter : Option CacheData
  queried : Bool
deriving DecidableEq, Repr

/-- Embedding of
`load_or_build_high_level_packages(grand_summary, force_rebuild)`. -/
def load_or_build_high_level_packages (repoQ : String → Option String)
    (now : Int) (grand_summary : List (String × List String))
    (force_rebuild : Bool) (cache : Option CacheData) :
    Except Unit LoadResult :=
  let rebuilt : LoadResult :=
    let packages := build_high_level_packages repoQ grand_summary
    ⟨packages, some (.ok now packages), true⟩
  if force_rebuild then .ok rebuilt
  else
    match cache with
    | none => .ok rebuilt
    | some .malformed => .error ()
    | some (.ok ts packages) =>
      if now - ts < CACHE_EXPIRY_DAYS * secondsPerDay then
        .ok ⟨packages, some (.ok ts packages), false⟩
      else .ok rebuilt

/-- C2 counterexample: a cache file whose content is not well-formed
(unparseable JSON, missing key or unparseable timestamp) makes the load
operation raise — the exception propagates instead of being treated as
a cache miss. -/
theorem C2_counterexample :
    load_or_build_high_level_packages (fun _ => none) 0 [] false
      (some .malformed) = .error () := rfl

/-- C2 (amended): an absent cache file and a well-formed but stale one
are treated exactly as cache misses — the graph is rebuilt, persisted
with a fresh timestamp and returned without error — but cache content
that is not well-formed raises an error that propagates out of the load
operation. -/
theorem C2_amended (repoQ : String → Option String) (now : Int)
    (grand_summary : List (String × List String)) (ts : Int)
    (packages : List (String × List String))
    (hstale : ¬ now - ts < CACHE_EXPIRY_DAYS * secondsPerDay) :
    load_or_build_high_level_packages repoQ now grand_summary false none =
      .ok ⟨build_high_level_packages repoQ grand_summary,
        some (.ok now (build_high_level_packages repoQ grand_summary)), true⟩ ∧
    load_or_build_high_level_packages repoQ now grand_summary false
        (some (.ok ts packages)) =
      .ok ⟨build_high_level_packages repoQ grand_summary,
        some (.ok now (build_high_level_packages repoQ grand_summary)), true⟩ ∧
    load_or_build_high_level_packages repoQ now grand_summary false
        (some .malformed) = .error () := by
  refine ⟨rfl, ?_, rfl⟩
  simp [load_or_build_high_level_packages, hstale]

/-- Witness for C2 (amended) at a concrete stale timestamp (8 days
before `now`). -/
theorem C2_witness :
    ¬ ((691200 : Int) - 0 < CACHE_EXPIRY_DAYS * secondsPerDay) ∧
    load_or_build_high_level_packages (fun _ => none) 691200 [] false
        (some (.ok 0 [("glibc", ["glibc"])])) =
      .ok ⟨build_high_level_packages (fun _ => none) [],
        some (.ok 691200 (build_high_level_packages (fun _ => none) [])),
        true⟩ :=
  ⟨by decide,
   (C2_amended (fun _ => none) 691200 [] 0 [("glibc", ["glibc"])]
     (by decide)).2.1⟩

/-- C3: a well-formed cache record whose timestamp is outside the
expiry window is never returned as-is — the Graph Builder runs
(`queried = true`), the rebuilt graph is persisted with the fresh
timestamp `now` and returned — for any value of the force flag; and
conversely a well-formed record within the window, with no forced
rebuild, is returned unchanged with the cache file untouched and the
requirements query never invoked (`queried = false`). -/
theorem C3_cache_expiry (repoQ : String → Option String) (now : Int)
    (grand_summary : List (String × List String)) (force_rebuild : Bool)
    (ts : Int) (packages : List (String × List String)) :
    (¬ now - ts < CACHE_EXPIRY_DAYS * secondsPerDay →
      load_or_build_high_level_packages repoQ now grand_summary force_rebuild
          (some (.ok ts packages)) =
        .ok ⟨build_high_level_packages repoQ grand_summary,
          some (.ok now (build_high_level_packages repoQ grand_summary)),
          true⟩) ∧
    (now - ts < CACHE_EXPIRY_DAYS * secondsPerDay →
      load_or_build_high_level_packages repoQ now grand_summary false
          (some (.ok ts packages)) =
        .ok ⟨packages, some (.ok ts packages), false⟩) := by
  constructor
  · intro hstale
    cases force_rebuild <;> simp [load_or_build_high_level_packages, hstale]
  · intro hfresh
    simp [load_or_build_high_level_packages, hfresh]

/-- Witness for C3 at concrete stale (8 days) and fresh (1 day)
records. -/
theorem C3_witness :
    load_or_build_high_level_packages (fun _ => none) 691200 [] false
        (some (.ok 0 [("glibc", ["glibc"])])) =
      .ok ⟨build_high_level_packages (fun _ => none) [],
        some (.ok 691200 (build_high_level_packages (fun _ => none) [])),
        true⟩ ∧
    load_or_build_high_level_packages (fun _ => none) 86400 [] false
        (some (.ok 0 [("glibc", ["glibc"])])) =
      .ok ⟨[("glibc", ["glibc"])], some (.ok 0 [("glibc", ["glibc"])]),
        false⟩ :=
  ⟨(C3_cache_expiry (fun _ => none) 691200 [] false 0
      [("glibc", ["glibc"])]).1 (by decide),
   (C3_cache_expiry (fun _ => none) 86400 [] false 0
      [("glibc", ["glibc"])]).2 (by decide)⟩

/-! ## High-Level Aggregator

`main` (elf_rockylinux_dependency_analyzer.py lines 300-302) builds
`PACKAGE_TO_HIGH_LEVEL` as a dict comprehension and
`print_grand_summary` (lines 228-231) folds the grand summary into a
`defaultdict(set)` keyed by the high-level package.  Grand-summary
value sets and group sets are modelled as `Finset String`; the
comprehension's dict is modelled by its lookup function (later bindings
overwrite earlier ones, as in a Python dict). -/

/-- Embedding of the dict comprehension
`{low: high for high, lows in HIGH_LEVEL_PACKAGES.items() for low in lows}`:
lookup in the resulting dict, with the last binding winning. -/
def PACKAGE_TO_HIGH_LEVEL (high_level_packages : List (String × List String)) :
    String → Option String := fun low =>
  ((high_level_packages.map (fun hl => hl.2.map (fun l => (l, hl.1)))).flatten).foldl
    (fun acc kv => if kv.1 == low then some kv.2 else acc) none

/-- The group key `PACKAGE_TO_HIGH_LEVEL.get(package_name.split('-')[0],
package_name.split('-')[0])` of line 230, over an arbitrary map
lookup `pth`. -/
def highLevelOf (pth : String → Option String) (package_name : String) : String :=
  (pth (splitDashHead package_name)).getD (splitDashHead package_name)

/-- One `high_level_summary[high_level_package].update(full_package_names)`
step on a `defaultdict(set)` modelled as an association list: union
into the existing entry, or append a fresh one. -/
def insertUnion (acc : List (String × Finset String)) (g : String)
    (s : Finset String) : List (String × Finset String) :=
  if acc.any (fun e => e.1 == g) then
    acc.map (fun e => if e.1 == g then (e.1, e.2 ∪ s) else e)
  else acc ++ [(g, s)]

/-- Embedding of the aggregation loop of `print_grand_summary` (lines
228-231): fold every grand-summary entry's full-name set into the group
of its high-level package. -/
def high_level_summary (pth : String → Option String)
    (grand_summary : List (String × Finset String)) :
    List (String × Finset String) :=
  grand_summary.foldl (fun acc kv => insertUnion acc (highLevelOf pth kv.1) kv.2) []

/-- A full package name `f` is shown under group `g` of the rendered
rollup. -/
def memHLS (hls : List (String × Finset String)) (g f : String) : Prop :=
  ∃ e ∈ hls, e.1 = g ∧ f ∈ e.2

/-- Membership through one `insertUnion` step. -/
theorem memHLS_insertUnion (acc : List (String × Finset String))
    (g0 : String) (s : Finset String) (g f : String) :
    memHLS (insertUnion acc g0 s) g f ↔ memHLS acc g f ∨ (g = g0 ∧ f ∈ s) := by
  unfold insertUnion
  by_cases hany : acc.any (fun e => e.1 == g0) = true
  · simp only [hany, if_true]
    constructor
    · rintro ⟨e', he', hkey, hf⟩
      rw [List.mem_map] at he'
      obtain ⟨e, he, rfl⟩ := he'
      by_cases hk : (e.1 == g0) = true
      · rw [if_pos hk] at hkey hf
        rcases Finset.mem_union.mp hf with hfe | hfs
        · exact Or.inl ⟨e, he, hkey, hfe⟩
        · exact Or.inr ⟨by rw [← hkey]; exact eq_of_beq hk, hfs⟩
      · rw [if_neg hk] at hkey hf
        exact Or.inl ⟨e, he, hkey, hf⟩
    · rintro (⟨e, he, hkey, hf⟩ | ⟨rfl, hf⟩)
      · refine ⟨if (e.1 == g0) = true then (e.1, e.2 ∪ s) else e,
          List.mem_map.mpr ⟨e, he, rfl⟩, ?_⟩
        by_cases hk : (e.1 == g0) = true
        · rw [if_pos hk]
          exact ⟨hkey, Finset.mem_union_left _ hf⟩
        · rw [if_neg hk]
          exact ⟨hkey, hf⟩
      · obtain ⟨e, he, hk⟩ := List.any_eq_true.mp hany
        refine ⟨if (e.1 == g) = true then (e.1, e.2 ∪ s) else e,
          List.mem_map.mpr ⟨e, he, rfl⟩, ?_⟩
        rw [if_pos hk]
        exact ⟨eq_of_beq hk, Finset.mem_union_right _ hf⟩
  · simp only [hany, if_false]
    unfold memHLS
    constructor
    · rintro ⟨e, he, hkey, hf⟩
      rcases List.mem_append.mp he with hacc | hone
      · exact Or.inl ⟨e, hacc, hkey, hf⟩
      · rw [List.mem_singleton] at hone
        subst hone
        exact Or.inr ⟨hkey.symm, hf⟩
    · rintro (⟨e, he, hkey, hf⟩ | ⟨rfl, hf⟩)
      · exact ⟨e, List.mem_append_left _ he, hkey, hf⟩
      · exact ⟨(g, s), List.mem_append_right _ (List.mem_singleton.mpr rfl),
          rfl, hf⟩

/-- Membership in the rendered rollup after folding a list of
grand-summary entries onto an accumulator. -/
theorem memHLS_foldl (pth : String → Option String)
    (gs : List (String × Finset String)) (g f : String) :
    ∀ acc : List (String × Finset String),
      memHLS (gs.foldl
          (fun acc kv => insertUnion acc (highLevelOf pth kv.1) kv.2) acc) g f ↔
        memHLS acc g f ∨ ∃ kv ∈ gs, highLevelOf pth kv.1 = g ∧ f ∈ kv.2 := by
  induction gs with
  | nil => intro acc; simp
  | cons kv t ih =>
    intro acc
    rw [List.foldl_cons, ih, memHLS_insertUnion]
    constructor
    · rintro ((h | ⟨rfl, hf⟩) | ⟨kv', hkv', hg, hf⟩)
      · exact Or.inl h
      · exact Or.inr ⟨kv, List.mem_cons_self kv t, rfl, hf⟩
      · exact Or.inr ⟨kv', List.mem_cons_of_mem kv hkv', hg, hf⟩
    · rintro (h | ⟨kv', hkv', hg, hf⟩)
      · exact Or.inl (Or.inl h)
      · rcases List.mem_cons.mp hkv' with rfl | hmem
        · exact Or.inl (Or.inr ⟨hg.symm, hf⟩)
        · exact Or.inr ⟨kv', hmem, hg, hf⟩

/-- C8: the rendered grand rollup is a partition of the run's
discovered full package identifiers: under the construction invariant
that every grand-summary key is the dash-prefix of each full name
recorded under it, every full name of every entry appears in the group
of its key's high-level package, appears in no other group, and a
package absent from the HighLevelMap heads its own (dash-prefix-named)
singleton group. -/
theorem C8_partition (pth : String → Option String)
    (gs : List (String × Finset String))
    (hkeys : ∀ kv ∈ gs, ∀ f ∈ kv.2, kv.1 = splitDashHead f)
    (k : String) (fs : Finset String) (f : String)
    (hentry : (k, fs) ∈ gs) (hf : f ∈ fs) :
    memHLS (high_level_summary pth gs) (highLevelOf pth k) f ∧
    (∀ g, memHLS (high_level_summary pth gs) g f → g = highLevelOf pth k) ∧
    (pth (splitDashHead k) = none → highLevelOf pth k = splitDashHead k) := by
  refine ⟨?_, ?_, ?_⟩
  · rw [high_level_summary, memHLS_foldl]
    exact Or.inr ⟨(k, fs), hentry, rfl, hf⟩
  · intro g hg
    rw [high_level_summary, memHLS_foldl] at hg
    rcases hg with h | ⟨kv', hkv', hgl, hf'⟩
    · rcases h with ⟨e, he, _⟩
      exact absurd he (List.not_mem_nil e)
    · have h1 : kv'.1 = splitDashHead f := hkeys kv' hkv' f hf'
      have h2 : k = splitDashHead f := hkeys (k, fs) hentry f hf
      rw [← hgl]
      unfold highLevelOf
      rw [h1, ← h2]
  · intro h
    unfold highLevelOf
    rw [h]
    rfl

/-- Witness for C8 on a two-entry grand summary, one package mapped by
the HighLevelMap and one absent from it. -/
theorem C8_witness :
    memHLS
      (high_level_summary (fun s => if s == "zlib" then some "bash" else none)
        [("glibc", ({"glibc-2.34-40.el9.x86_64"} : Finset String)),
         ("zlib", ({"zlib-1.2.11-40.el9.x86_64"} : Finset String))])
      (highLevelOf (fun s => if s == "zlib" then some "bash" else none) "glibc")
      "glibc-2.34-40.el9.x86_64" :=
  (C8_partition (fun s => if s == "zlib" then some "bash" else none)
    [("glibc", ({"glibc-2.34-40.el9.x86_64"} : Finset String)),
     ("zlib", ({"zlib-1.2.11-40.el9.x86_64"} : Finset String))]
    (by decide) "glibc" {"glibc-2.34-40.el9.x86_64"} "glibc-2.34-40.el9.x86_64"
    (by decide) (by decide)).1
